import Mathlib

set_option autoImplicit false
set_option maxHeartbeats 1000000

/-!
Shallow embedding of the technical-analysis engine of the repository:
`tools/stock_data.py` (indicator computation: `StockDataFetcher`) and
`tools/analyzer.py` (interpretation rules, forecast and aggregation:
`StockAnalyzer`).

Numeric cells are modelled with the pandas/numpy float semantics the source
relies on: a cell is a finite rational, `+inf`, `-inf`, or `NaN` (an
undefined value); comparisons against `NaN` are false, division of a
positive finite value by zero yields `+inf`, and `0/0` yields `NaN`.
Python exceptions (e.g. `iloc[-1]` on an empty frame, or a fit on an empty
array) are modelled with `Except String`.
-/

/-- A pandas/numpy float cell: finite rational, one of the two infinities,
or `NaN` (the "undefined" marker used by derived indicator columns). -/
inductive PFloat where
  | nan : PFloat
  | inf : PFloat
  | ninf : PFloat
  | fin : ℚ → PFloat
deriving DecidableEq, Repr

namespace PFloat

/-- IEEE negation. -/
def neg : PFloat → PFloat
  | nan => nan
  | inf => ninf
  | ninf => inf
  | fin a => fin (-a)

/-- IEEE addition: `NaN` is absorbing, `inf + (-inf) = NaN`. -/
def add : PFloat → PFloat → PFloat
  | nan, _ => nan
  | _, nan => nan
  | inf, ninf => nan
  | ninf, inf => nan
  | inf, _ => inf
  | _, inf => inf
  | ninf, _ => ninf
  | _, ninf => ninf
  | fin a, fin b => fin (a + b)

/-- IEEE subtraction. -/
def sub (a b : PFloat) : PFloat := add a (neg b)

/-- IEEE multiplication: `NaN` absorbing, `inf * 0 = NaN`. -/
def mul : PFloat → PFloat → PFloat
  | nan, _ => nan
  | _, nan => nan
  | fin a, fin b => fin (a * b)
  | inf, fin b => if 0 < b then inf else if b < 0 then ninf else nan
  | fin a, inf => if 0 < a then inf else if a < 0 then ninf else nan
  | ninf, fin b => if 0 < b then ninf else if b < 0 then inf else nan
  | fin a, ninf => if 0 < a then ninf else if a < 0 then inf else nan
  | inf, inf => inf
  | ninf, ninf => inf
  | inf, ninf => ninf
  | ninf, inf => ninf

/-- IEEE division as numpy performs it on float64 cells: a positive finite
value divided by zero is `+inf`, a negative one is `-inf`, and `0/0` is
`NaN` (numpy emits a warning, not an exception). -/
def div : PFloat → PFloat → PFloat
  | nan, _ => nan
  | _, nan => nan
  | fin a, fin b =>
      if b = 0 then (if 0 < a then inf else if a < 0 then ninf else nan)
      else fin (a / b)
  | fin _, inf => fin 0
  | fin _, ninf => fin 0
  | inf, fin b => if 0 ≤ b then inf else ninf
  | ninf, fin b => if 0 ≤ b then ninf else inf
  | inf, inf => nan
  | inf, ninf => nan
  | ninf, inf => nan
  | ninf, ninf => nan

/-- IEEE strict less-than: any comparison involving `NaN` is false. -/
def lt : PFloat → PFloat → Bool
  | nan, _ => false
  | _, nan => false
  | fin a, fin b => decide (a < b)
  | ninf, ninf => false
  | ninf, _ => true
  | _, ninf => false
  | inf, inf => false
  | _, inf => true
  | inf, _ => false

/-- IEEE strict greater-than. -/
def gt (a b : PFloat) : Bool := lt b a

/-- IEEE equality test: `NaN` is not equal to anything, itself included. -/
def beq : PFloat → PFloat → Bool
  | nan, _ => false
  | _, nan => false
  | inf, inf => true
  | ninf, ninf => true
  | fin a, fin b => decide (a = b)
  | _, _ => false

/-- IEEE absolute value. -/
def abs : PFloat → PFloat
  | nan => nan
  | inf => inf
  | ninf => inf
  | fin a => fin |a|

/-- Sum of a list of cells (`NaN` anywhere makes the sum `NaN`, matching a
rolling window that contains a `NaN` under `min_periods = window`). -/
def sum (l : List PFloat) : PFloat := l.foldr add (fin 0)

end PFloat

/-- The trailing window of width `w` ending at position `i` (inclusive). -/
def winSlice (w i : ℕ) (xs : List PFloat) : List PFloat :=
  (xs.take (i + 1)).drop (i + 1 - w)

/-- `Series.rolling(window=w).mean()` with the default `min_periods = w`:
entry `i` is `NaN` for `i + 1 < w`, and otherwise the arithmetic mean of
the `w` trailing values (which is `NaN` whenever the window contains a
`NaN`). -/
def rollingMean (w : ℕ) (xs : List PFloat) : List PFloat :=
  (List.range xs.length).map fun i =>
    if i + 1 < w then PFloat.nan
    else PFloat.div (PFloat.sum (winSlice w i xs)) (PFloat.fin w)

/-- `Series.rolling(window=w).std() ** 2`, i.e. the rolling sample variance
(`ddof = 1`): the square is carried so values stay rational. -/
def rollingVar (w : ℕ) (xs : List PFloat) : List PFloat :=
  (List.range xs.length).map fun i =>
    if i + 1 < w then PFloat.nan
    else
      let ws := winSlice w i xs
      let m := PFloat.div (PFloat.sum ws) (PFloat.fin w)
      PFloat.div
        (PFloat.sum (ws.map fun x => PFloat.mul (PFloat.sub x m) (PFloat.sub x m)))
        (PFloat.fin ((w - 1 : ℕ) : ℚ))

/-- Tail of `Series.diff()`: consecutive differences against `prev`. -/
def diffGo (prev : PFloat) : List PFloat → List PFloat
  | [] => []
  | y :: ys => PFloat.sub y prev :: diffGo y ys

/-- `Series.diff()`: first entry `NaN`, then consecutive differences. -/
def diffP : List PFloat → List PFloat
  | [] => []
  | x :: xs => PFloat.nan :: diffGo x xs

/-- Tail of `Series.pct_change()`: `x_i / x_{i-1} - 1` cell by cell. -/
def pctGo (prev : ℚ) : List ℚ → List PFloat
  | [] => []
  | y :: ys =>
      PFloat.sub (PFloat.div (PFloat.fin y) (PFloat.fin prev)) (PFloat.fin 1) :: pctGo y ys

/-- `Series.pct_change().dropna()`: the leading `NaN` (and any `0/0` cell)
is dropped; infinities survive `dropna`, as in pandas. -/
def pctChangeDropna : List ℚ → List PFloat
  | [] => []
  | x :: xs => (pctGo x xs).filter fun v => decide (v ≠ PFloat.nan)

/-- Accumulator loop of `Series.ewm(span, adjust=False).mean()`. -/
def ewmGo (a : ℚ) (s : ℚ) : List ℚ → List ℚ
  | [] => [s]
  | y :: ys => s :: ewmGo a (a * y + (1 - a) * s) ys

/-- `Series.ewm(span=s, adjust=False).mean()`: recursive EMA seeded by the
first value, smoothing factor `α = 2 / (span + 1)`; defined from the
first bar onward. -/
def ewm (span : ℕ) : List ℚ → List ℚ
  | [] => []
  | x :: xs => ewmGo (2 / ((span : ℚ) + 1)) x xs

/-! ## Indicator computation: `StockDataFetcher.calculate_technical_indicators`
(`tools/stock_data.py`, lines 118-154). The input is the `Close` column of
the price frame; each derived column is built exactly as in the source. -/

/-- One simple moving-average column: `df['Close'].rolling(window=w).mean()`. -/
def ma_col (w : ℕ) (closes : List ℚ) : List PFloat :=
  rollingMean w (closes.map PFloat.fin)

/-- `df['MACD'] = df['EMA12'] - df['EMA26']` with
`EMA12/EMA26 = df['Close'].ewm(span=12|26, adjust=False).mean()`. -/
def macd_list (closes : List ℚ) : List ℚ :=
  List.zipWith (fun a b => a - b) (ewm 12 closes) (ewm 26 closes)

/-- `df['Signal'] = df['MACD'].ewm(span=9, adjust=False).mean()`. -/
def signal_list (closes : List ℚ) : List ℚ :=
  ewm 9 (macd_list closes)

/-- `delta.where(delta > 0, 0)` over `delta = df['Close'].diff()`: the
leading `NaN` of `diff` fails the `> 0` test and is replaced by `0`. -/
def gains (closes : List ℚ) : List PFloat :=
  (diffP (closes.map PFloat.fin)).map fun d =>
    if PFloat.gt d (PFloat.fin 0) then d else PFloat.fin 0

/-- `-delta.where(delta < 0, 0)`: negated negative deltas, `0` elsewhere
(the leading `NaN` again fails the test and becomes `0`). -/
def losses (closes : List ℚ) : List PFloat :=
  (diffP (closes.map PFloat.fin)).map fun d =>
    if PFloat.lt d (PFloat.fin 0) then PFloat.neg d else PFloat.fin 0

/-- `gain.rolling(window=14).mean()` of the RSI computation. -/
def gainAvg (closes : List ℚ) : List PFloat :=
  rollingMean 14 (gains closes)

/-- `loss.rolling(window=14).mean()` of the RSI computation. -/
def lossAvg (closes : List ℚ) : List PFloat :=
  rollingMean 14 (losses closes)

/-- One cell of `100 - (100 / (1 + rs))` for `rs = gain / loss`. -/
def rsiPoint (g l : PFloat) : PFloat :=
  PFloat.sub (PFloat.fin 100)
    (PFloat.div (PFloat.fin 100) (PFloat.add (PFloat.fin 1) (PFloat.div g l)))

/-- The 14-period RSI column (`tools/stock_data.py` lines 147-152, and the
identical computation in `StockAnalyzer.analyze_momentum`). -/
def rsiSeries (closes : List ℚ) : List PFloat :=
  List.zipWith rsiPoint (gainAvg closes) (lossAvg closes)

/-- The indicator columns of the frame returned by
`calculate_technical_indicators`.  The Bollinger-band columns
(`MA20_STD`, `Upper_Band`, `Lower_Band`) contain a real square root and are
represented through `rollingVar` (the squared standard deviation) where the
aggregator consumes them; no claim refers to the band columns themselves. -/
structure TechFrame where
  close : List PFloat
  ma5 : List PFloat
  ma20 : List PFloat
  ma60 : List PFloat
  ma120 : List PFloat
  ema12 : List PFloat
  ema26 : List PFloat
  macd : List PFloat
  signal : List PFloat
  rsi : List PFloat
deriving DecidableEq, Repr

/-- `StockDataFetcher.calculate_technical_indicators`: the input series is
copied (`df = data.copy()`) and extended with derived columns; the `Close`
column is returned unchanged. -/
def calculate_technical_indicators (closes : List ℚ) : TechFrame :=
  { close := closes.map PFloat.fin
  , ma5 := ma_col 5 closes
  , ma20 := ma_col 20 closes
  , ma60 := ma_col 60 closes
  , ma120 := ma_col 120 closes
  , ema12 := (ewm 12 closes).map PFloat.fin
  , ema26 := (ewm 26 closes).map PFloat.fin
  , macd := (macd_list closes).map PFloat.fin
  , signal := (signal_list closes).map PFloat.fin
  , rsi := rsiSeries closes }

/-! ## Interpretation rules, forecast and aggregation: `StockAnalyzer`
(`tools/analyzer.py`). -/

/-- One daily bar of a `PriceSeries`. -/
structure Bar where
  op : ℚ
  high : ℚ
  low : ℚ
  close : ℚ
  volume : ℕ
deriving DecidableEq, Repr

/-- Result dictionary of `StockAnalyzer.analyze_trend`. -/
structure TrendResult where
  trend : String
  strength : PFloat
  current : ℚ
  ma : PFloat
deriving DecidableEq, Repr

/-- `StockAnalyzer.analyze_trend` (lines 31-60), window 20: compares the
last close with the last 20-period moving average; `iloc[-1]` on an empty
frame raises, modelled as `Except.error`. -/
def analyze_trend (closes : List ℚ) : Except String TrendResult :=
  match closes.getLast?, (rollingMean 20 (closes.map PFloat.fin)).getLast? with
  | some c, some m =>
      Except.ok
        { trend := if PFloat.gt (PFloat.fin c) m then ("상승") else ("하락")
        , strength :=
            PFloat.mul (PFloat.div (PFloat.abs (PFloat.sub (PFloat.fin c) m)) m)
              (PFloat.fin 100)
        , current := c
        , ma := m }
  | _, _ => Except.error ("IndexError: single positional indexer is out-of-bounds")

/-- Result dictionary of `StockAnalyzer.analyze_momentum`. -/
structure MomentumResult where
  rsi : PFloat
  status : String
deriving DecidableEq, Repr

/-- `StockAnalyzer.analyze_momentum` (lines 62-93), period 14: classifies
the last RSI cell; `rsi.iloc[-1]` raises on an empty series. -/
def analyze_momentum (closes : List ℚ) : Except String MomentumResult :=
  match (rsiSeries closes).getLast? with
  | some r =>
      Except.ok
        { rsi := r
        , status :=
            if PFloat.gt r (PFloat.fin 70) then ("과매수")
            else if PFloat.lt r (PFloat.fin 30) then ("과매도")
            else ("중립") }
  | none => Except.error ("IndexError: single positional indexer is out-of-bounds")

/-- Result dictionary of `StockAnalyzer.analyze_volatility`.  The source
stores `returns.rolling(20).std().iloc[-1] * sqrt(252) * 100`; the square
of that value (`volSq = var * 252 * 100^2`) is carried so it stays
rational, and the banding thresholds are compared squared
(`vol > 40 iff volSq > 1600` since the volatility is a nonnegative root;
a `NaN` fails both forms of the comparison alike). -/
structure VolatilityResult where
  volSq : PFloat
  level : String
deriving DecidableEq, Repr

/-- `StockAnalyzer.analyze_volatility` (lines 95-125), window 20. -/
def analyze_volatility (closes : List ℚ) : Except String VolatilityResult :=
  let returns := pctChangeDropna closes
  match (rollingVar 20 returns).getLast? with
  | none => Except.error ("IndexError: single positional indexer is out-of-bounds")
  | some v =>
      let volSq := PFloat.mul v (PFloat.fin 2520000)
      Except.ok
        { volSq := volSq
        , level :=
            if PFloat.gt volSq (PFloat.fin 1600) then ("매우 높음")
            else if PFloat.gt volSq (PFloat.fin 900) then ("높음")
            else if PFloat.gt volSq (PFloat.fin 400) then ("보통")
            else ("낮음") }

/-- Result dictionary of `StockAnalyzer.analyze_support_resistance`. -/
structure SupportResistance where
  current : ℚ
  support : ℚ
  resistance : ℚ
  toSupport : PFloat
  toResistance : PFloat
deriving DecidableEq, Repr

/-- `StockAnalyzer.analyze_support_resistance` (lines 127-154), window 20:
min low / max high over the trailing 20 bars. -/
def analyze_support_resistance (bars : List Bar) : Except String SupportResistance :=
  match bars.getLast? with
  | none => Except.error ("IndexError: single positional indexer is out-of-bounds")
  | some lastBar =>
      let recent := bars.drop (bars.length - 20)
      let support := ((recent.map Bar.low).min?).getD 0
      let resistance := ((recent.map Bar.high).max?).getD 0
      let c := lastBar.close
      Except.ok
        { current := c
        , support := support
        , resistance := resistance
        , toSupport :=
            PFloat.mul (PFloat.div (PFloat.fin (c - support)) (PFloat.fin c)) (PFloat.fin 100)
        , toResistance :=
            PFloat.mul (PFloat.div (PFloat.fin (resistance - c)) (PFloat.fin c)) (PFloat.fin 100) }

/-- Result dictionary of `StockAnalyzer.predict_price`. -/
structure Forecast where
  current : ℚ
  predicted : ℚ
  change : PFloat
  direction : String
deriving DecidableEq, Repr

/-- Slope of `sklearn.linear_model.LinearRegression` fit of the close
prices against the zero-based integer time index `0, 1, ..., n-1`
(ordinary least squares; for a single sample the centred design matrix is
zero and the minimum-norm solution has slope `0`). -/
def linreg_slope (ys : List ℚ) : ℚ :=
  let n : ℚ := (ys.length : ℚ)
  let xs : List ℚ := (List.range ys.length).map fun i => (i : ℚ)
  let sx := xs.sum
  let sy := ys.sum
  let sxy := (List.zipWith (fun a b => a * b) xs ys).sum
  let sxx := (xs.map fun x => x * x).sum
  let d := n * sxx - sx * sx
  if d = 0 then 0 else (n * sxy - sx * sy) / d

/-- Intercept of the same ordinary-least-squares fit. -/
def linreg_intercept (ys : List ℚ) : ℚ :=
  if ys.length = 0 then 0
  else
    (ys.sum - linreg_slope ys * ((List.range ys.length).map fun i => (i : ℚ)).sum)
      / (ys.length : ℚ)

/-- `StockAnalyzer.predict_price` (lines 156-210).  The primary ARIMA(5,1,0)
fit is an external numerical procedure; its outcome is passed in as
`primary : Option ℚ` — `some p` is a successful fit whose `days`-step
forecast ends at `p`, `none` is any failure of the `try` block (the bare
`except:` catches every exception).  On failure the fallback ordinary
least-squares regression is used, extrapolated to index `n + days - 1`
(the last entry of `range(len(data), len(data) + days)`).  Only an empty
series makes the fallback itself raise (`LinearRegression.fit` on zero
samples), which is the one surfaced error. -/
def predict_price (primary : Option ℚ) (days : ℕ) (closes : List ℚ) : Except String Forecast :=
  match closes.getLast? with
  | none => Except.error ("ValueError: Found array with 0 sample(s)")
  | some cur =>
      let pred :=
        match primary with
        | some p => p
        | none =>
            linreg_intercept closes +
              linreg_slope closes * ((closes.length + days - 1 : ℕ) : ℚ)
      let change := PFloat.mul (PFloat.div (PFloat.fin (pred - cur)) (PFloat.fin cur)) (PFloat.fin 100)
      Except.ok
        { current := cur
        , predicted := pred
        , change := change
        , direction := if PFloat.gt change (PFloat.fin 0) then ("상승") else ("하락") }

/-- One trailing-return entry of `StockAnalyzer.full_analysis`
(lines 308-312): `(iloc[-1] / iloc[-k] - 1) * 100 if len(data) >= k else None`. -/
def trailing_return (k : ℕ) (closes : List ℚ) : Option PFloat :=
  if k ≤ closes.length then
    some (PFloat.mul
      (PFloat.sub
        (PFloat.div (PFloat.fin (closes.getD (closes.length - 1) 0))
          (PFloat.fin (closes.getD (closes.length - k) 0)))
        (PFloat.fin 1))
      (PFloat.fin 100))
  else none

/-- Bollinger-band status of `full_analysis` (lines 319-329):
`close > MA + 2σ` is decided as `close - MA > 0 ∧ (close - MA)^2 > 4·var`
(equivalent since `σ = √var ≥ 0`), and symmetrically for the lower band;
when MA or σ is `NaN` every comparison is false and the status is neutral,
exactly as in the source. -/
def bb_status (closes : List ℚ) : String :=
  let cs := closes.map PFloat.fin
  let maL := ((rollingMean 20 cs).getLast?).getD PFloat.nan
  let varL := ((rollingVar 20 cs).getLast?).getD PFloat.nan
  let c := PFloat.fin (closes.getD (closes.length - 1) 0)
  let dUp := PFloat.sub c maL
  let dDn := PFloat.sub maL c
  if PFloat.gt dUp (PFloat.fin 0) &&
      PFloat.gt (PFloat.mul dUp dUp) (PFloat.mul (PFloat.fin 4) varL) then ("과매수")
  else if PFloat.gt dDn (PFloat.fin 0) &&
      PFloat.gt (PFloat.mul dDn dDn) (PFloat.mul (PFloat.fin 4) varL) then ("과매도")
  else ("중립")

/-- The assembled per-instrument report of `full_analysis` (lines 331-355). -/
structure ReportStruct where
  name : String
  code : String
  current : ℚ
  trend : TrendResult
  momentum : MomentumResult
  volatility : VolatilityResult
  supportResistance : SupportResistance
  prediction : Forecast
  ret1m : Option PFloat
  ret3m : Option PFloat
  ret6m : Option PFloat
  ret1y : Option PFloat
  macdStatus : String
  bbStatus : String
  rsiLast : PFloat
deriving DecidableEq, Repr

/-- Outcome of `full_analysis`: either the structured error dictionary
`{"오류": ...}` returned for an empty series, or the full report. -/
inductive FullResult where
  | dataError : String → FullResult
  | report : ReportStruct → FullResult
deriving DecidableEq, Repr

/-- `StockAnalyzer.full_analysis` (lines 269-355).  The provider series is
passed in as `bars`; `primary` is the outcome of the ARIMA fit, as in
`predict_price`.  On an empty series the structured error dictionary is
returned (`Except.ok`, not an exception); otherwise the sub-analyses run
in source order, any uncaught exception of theirs propagating. -/
def full_analysis (primary : Option ℚ) (code name : String) (bars : List Bar) :
    Except String FullResult :=
  if bars.isEmpty then
    Except.ok (FullResult.dataError
      (name ++ ("(") ++ code ++ (") 데이터를 가져오는데 실패했습니다.")))
  else
    let closes := bars.map Bar.close
    let frame := calculate_technical_indicators closes
    match analyze_trend closes with
    | Except.error e => Except.error e
    | Except.ok t =>
    match analyze_momentum closes with
    | Except.error e => Except.error e
    | Except.ok m =>
    match analyze_volatility closes with
    | Except.error e => Except.error e
    | Except.ok v =>
    match analyze_support_resistance bars with
    | Except.error e => Except.error e
    | Except.ok sr =>
    match predict_price primary 5 closes with
    | Except.error e => Except.error e
    | Except.ok f =>
    Except.ok (FullResult.report
      { name := name
      , code := code
      , current := closes.getD (closes.length - 1) 0
      , trend := t
      , momentum := m
      , volatility := v
      , supportResistance := sr
      , prediction := f
      , ret1m := trailing_return 20 closes
      , ret3m := trailing_return 60 closes
      , ret6m := trailing_return 120 closes
      , ret1y := trailing_return 250 closes
      , macdStatus :=
          if PFloat.gt ((frame.macd.getLast?).getD PFloat.nan)
              ((frame.signal.getLast?).getD PFloat.nan)
          then ("매수 신호") else ("매도 신호")
      , bbStatus := bb_status closes
      , rsiLast := (frame.rsi.getLast?).getD PFloat.nan })

/-- One row of the comparison table built by
`StockAnalyzer.compare_sector_performance` (lines 251-258). -/
structure CompareRow where
  name : String
  code : String
  totalReturn : PFloat
  sharpe : PFloat
  recentMomentum : PFloat
deriving DecidableEq, Repr

/-- Line 245: `sharpe = (total_return / 100) / (volatility / 100) if
volatility != 0 else 0` — numpy `!=` is true for `NaN`, so only an exact
zero volatility takes the sentinel branch. -/
def sharpe_calc (totalReturn volatility : PFloat) : PFloat :=
  if PFloat.beq volatility (PFloat.fin 0) then PFloat.fin 0
  else
    PFloat.div (PFloat.div totalReturn (PFloat.fin 100))
      (PFloat.div volatility (PFloat.fin 100))

/-- One row computation (lines 239-258).  `volOf` abstracts
`returns.std() * sqrt(252) * 100`, the annualized volatility of the
instrument's daily returns, whose square root is irrational. -/
def compare_row (volOf : List ℚ → PFloat) (name code : String) (closes : List ℚ) :
    CompareRow :=
  let tr := PFloat.mul
    (PFloat.sub
      (PFloat.div (PFloat.fin (closes.getD (closes.length - 1) 0))
        (PFloat.fin (closes.getD 0 0)))
      (PFloat.fin 1))
    (PFloat.fin 100)
  let recent := closes.drop (closes.length - 20)
  let rm := PFloat.mul
    (PFloat.sub
      (PFloat.div (PFloat.fin (recent.getD (recent.length - 1) 0))
        (PFloat.fin (recent.getD 0 0)))
      (PFloat.fin 1))
    (PFloat.fin 100)
  { name := name
  , code := code
  , totalReturn := tr
  , sharpe := sharpe_calc tr (volOf closes)
  , recentMomentum := rm }

/-- Descending insertion for the `sort_values('총 수익률(%)', ascending=False)`
step. -/
def insertDesc (r : CompareRow) : List CompareRow → List CompareRow
  | [] => [r]
  | x :: xs =>
      if PFloat.lt r.totalReturn x.totalReturn then x :: insertDesc r xs
      else r :: x :: xs

/-- Sort of the assembled rows, descending by total return. -/
def sortRowsDesc : List CompareRow → List CompareRow
  | [] => []
  | r :: rs => insertDesc r (sortRowsDesc rs)

/-- `StockAnalyzer.compare_sector_performance` (lines 212-267).  Each
instrument is `(name, code, closes)`; instruments with an empty series are
skipped.  Line 262, `df.index = pd.DatetimeIndex(df.index.values, freq='B')`,
reinterprets the integer row index `0..n-1` as nanosecond-spaced
timestamps and validates them against business-day frequency: with two or
more rows the generated business-day range `[epoch, epoch+1day, ...]`
differs from `[0ns, 1ns, ...]` and pandas raises `ValueError`, so the
sorted table is only ever returned with at most one row. -/
def compare_sector_performance (volOf : List ℚ → PFloat)
    (instruments : List (String × String × List ℚ)) :
    Except String (List CompareRow) :=
  let rows := instruments.filterMap fun it =>
    if it.2.2.isEmpty then none else some (compare_row volOf it.1 it.2.1 it.2.2)
  if 2 ≤ rows.length then
    Except.error ("ValueError: Inferred frequency None does not conform to passed frequency B")
  else Except.ok (sortRowsDesc rows)

/-! ## Concrete series used by witnesses and counterexamples. -/

/-- Fifteen strictly increasing closes. -/
def inc15 : List ℚ := [1, 2, 3, 4, 5, 6, 7, 8, 9, 10, 11, 12, 13, 14, 15]

/-- Fifteen constant closes. -/
def const15 : List ℚ := [1, 1, 1, 1, 1, 1, 1, 1, 1, 1, 1, 1, 1, 1, 1]

/-- Fourteen strictly increasing closes (one bar below the spec's claimed
15-bar RSI minimum). -/
def inc14 : List ℚ := [1, 2, 3, 4, 5, 6, 7, 8, 9, 10, 11, 12, 13, 14]

/-- Twenty positive closes, constant then a final jump. -/
def c20 : List ℚ :=
  [1, 1, 1, 1, 1, 1, 1, 1, 1, 1, 1, 1, 1, 1, 1, 1, 1, 1, 1, 3]

/-- One hundred twenty constant closes. -/
def c120 : List ℚ := List.replicate 120 (1 : ℚ)

/-- A constant bar with every price field `1`. -/
def unitBar : Bar := { op := 1, high := 1, low := 1, close := 1, volume := 0 }

/-- Two constant bars: the smallest series on which `full_analysis`
completes without an exception. -/
def bars2 : List Bar := [unitBar, unitBar]

/-! ## Helper lemmas about the cell arithmetic and the series primitives. -/

theorem PFloat.add_fin_fin (a b : ℚ) :
    PFloat.add (PFloat.fin a) (PFloat.fin b) = PFloat.fin (a + b) := rfl

theorem PFloat.sub_fin_fin (a b : ℚ) :
    PFloat.sub (PFloat.fin a) (PFloat.fin b) = PFloat.fin (a - b) := by
  simp [PFloat.sub, PFloat.neg, PFloat.add, sub_eq_add_neg]

theorem PFloat.div_fin_fin {b : ℚ} (a : ℚ) (h : b ≠ 0) :
    PFloat.div (PFloat.fin a) (PFloat.fin b) = PFloat.fin (a / b) := by
  simp [PFloat.div, h]

theorem PFloat.div_fin_zero_pos {a : ℚ} (h : 0 < a) :
    PFloat.div (PFloat.fin a) (PFloat.fin 0) = PFloat.inf := by
  simp [PFloat.div, h]

theorem PFloat.div_zero_zero :
    PFloat.div (PFloat.fin 0) (PFloat.fin 0) = PFloat.nan := by
  simp [PFloat.div]

theorem PFloat.div_nan_right (x : PFloat) : PFloat.div x PFloat.nan = PFloat.nan := by
  cases x <;> rfl

theorem PFloat.div_nan_left (x : PFloat) : PFloat.div PFloat.nan x = PFloat.nan := by
  cases x <;> rfl

theorem PFloat.add_fin_nan (a : ℚ) :
    PFloat.add (PFloat.fin a) PFloat.nan = PFloat.nan := rfl

theorem PFloat.add_fin_inf (a : ℚ) :
    PFloat.add (PFloat.fin a) PFloat.inf = PFloat.inf := rfl

theorem PFloat.div_fin_inf (a : ℚ) :
    PFloat.div (PFloat.fin a) PFloat.inf = PFloat.fin 0 := rfl

theorem PFloat.sub_fin_nan (a : ℚ) :
    PFloat.sub (PFloat.fin a) PFloat.nan = PFloat.nan := rfl

theorem PFloat.gt_nan_right (x : PFloat) : PFloat.gt x PFloat.nan = false := by
  cases x <;> rfl

theorem PFloat.gt_nan_left (x : PFloat) : PFloat.gt PFloat.nan x = false := by
  cases x <;> rfl

theorem PFloat.lt_nan_left (x : PFloat) : PFloat.lt PFloat.nan x = false := by
  cases x <;> rfl

theorem PFloat.gt_fin_fin (a b : ℚ) :
    PFloat.gt (PFloat.fin a) (PFloat.fin b) = decide (b < a) := rfl

theorem PFloat.lt_fin_fin (a b : ℚ) :
    PFloat.lt (PFloat.fin a) (PFloat.fin b) = decide (a < b) := rfl

theorem PFloat.abs_fin (a : ℚ) : PFloat.abs (PFloat.fin a) = PFloat.fin |a| := rfl

theorem PFloat.mul_fin_fin (a b : ℚ) :
    PFloat.mul (PFloat.fin a) (PFloat.fin b) = PFloat.fin (a * b) := rfl

theorem PFloat.sum_map_fin (l : List ℚ) :
    PFloat.sum (l.map PFloat.fin) = PFloat.fin l.sum := by
  induction l with
  | nil => rfl
  | cons x xs ih =>
      simp only [List.map_cons, PFloat.sum, List.foldr_cons, List.sum_cons]
      rw [show (List.map PFloat.fin xs).foldr PFloat.add (PFloat.fin 0) =
            PFloat.sum (xs.map PFloat.fin) from rfl, ih, PFloat.add_fin_fin]

theorem PFloat.sum_fin_of_forall (l : List PFloat)
    (h : ∀ x ∈ l, ∃ q, x = PFloat.fin q ∧ 0 ≤ q) :
    ∃ s, 0 ≤ s ∧ PFloat.sum l = PFloat.fin s := by
  induction l with
  | nil => exact ⟨0, le_refl 0, rfl⟩
  | cons x xs ih =>
      obtain ⟨q, hx, hq⟩ := h x (List.mem_cons_self x xs)
      obtain ⟨s, hs0, hs⟩ := ih fun y hy => h y (List.mem_cons_of_mem x hy)
      refine ⟨q + s, add_nonneg hq hs0, ?_⟩
      simp only [PFloat.sum, List.foldr_cons] at hs ⊢
      rw [hx, hs, PFloat.add_fin_fin]

theorem length_rollingMean (w : ℕ) (xs : List PFloat) :
    (rollingMean w xs).length = xs.length := by
  simp [rollingMean]

theorem rollingMean_getElem?_lt {w i : ℕ} (xs : List PFloat)
    (h1 : i + 1 < w) (h2 : i < xs.length) :
    (rollingMean w xs)[i]? = some PFloat.nan := by
  simp [rollingMean, List.getElem?_map, List.getElem?_range h2, h1]

theorem rollingMean_getElem?_ge {w i : ℕ} (xs : List PFloat)
    (h1 : w ≤ i + 1) (h2 : i < xs.length) :
    (rollingMean w xs)[i]? =
      some (PFloat.div (PFloat.sum (winSlice w i xs)) (PFloat.fin (w : ℚ))) := by
  simp [rollingMean, List.getElem?_map, List.getElem?_range h2, Nat.not_lt.mpr h1]

theorem mem_winSlice {w i : ℕ} {xs : List PFloat} {x : PFloat}
    (h : x ∈ winSlice w i xs) : x ∈ xs :=
  List.mem_of_mem_take (List.mem_of_mem_drop h)

theorem winSlice_map_fin (w i : ℕ) (closes : List ℚ) :
    winSlice w i (closes.map PFloat.fin) =
      ((closes.take (i + 1)).drop (i + 1 - w)).map PFloat.fin := by
  simp [winSlice, List.map_take, List.map_drop]

/-- Entries of a rolling mean over a list of nonnegative finite cells are
either `NaN` (incomplete window) or a nonnegative finite mean. -/
theorem rollingMean_entry_cases {w i : ℕ} (xs : List PFloat) (hw : 0 < w)
    (h : ∀ x ∈ xs, ∃ q, x = PFloat.fin q ∧ 0 ≤ q) {v : PFloat}
    (hv : (rollingMean w xs)[i]? = some v) :
    v = PFloat.nan ∨ ∃ q, 0 ≤ q ∧ v = PFloat.fin q := by
  have hi : i < xs.length := by
    have := List.getElem?_eq_some_iff.mp hv
    obtain ⟨hlen, _⟩ := this
    simpa [length_rollingMean] using hlen
  by_cases hcase : i + 1 < w
  · left
    have := rollingMean_getElem?_lt xs hcase hi
    rw [this] at hv
    exact (Option.some.inj hv).symm
  · right
    have hge : w ≤ i + 1 := Nat.not_lt.mp hcase
    have := rollingMean_getElem?_ge xs hge hi
    rw [this] at hv
    obtain ⟨s, hs0, hs⟩ := PFloat.sum_fin_of_forall (winSlice w i xs)
      (fun x hx => h x (mem_winSlice hx))
    have hwq : ((w : ℚ)) ≠ 0 := by
      exact_mod_cast Nat.pos_iff_ne_zero.mp hw
    refine ⟨s / w, ?_, ?_⟩
    · exact div_nonneg hs0 (by positivity)
    · rw [← Option.some.inj hv, hs, PFloat.div_fin_fin s hwq]

theorem diffGo_fin_entries (p : ℚ) (l : List ℚ) :
    ∀ x ∈ diffGo (PFloat.fin p) (l.map PFloat.fin), ∃ q, x = PFloat.fin q := by
  induction l generalizing p with
  | nil => intro x hx; simp [diffGo] at hx
  | cons y ys ih =>
      intro x hx
      simp only [List.map_cons, diffGo, List.mem_cons] at hx
      rcases hx with hx | hx
      · exact ⟨y - p, by rw [hx, PFloat.sub_fin_fin]⟩
      · exact ih y x hx

theorem diffP_entries (closes : List ℚ) :
    ∀ x ∈ diffP (closes.map PFloat.fin), x = PFloat.nan ∨ ∃ q, x = PFloat.fin q := by
  cases closes with
  | nil => intro x hx; simp [diffP] at hx
  | cons c cs =>
      intro x hx
      simp only [List.map_cons, diffP, List.mem_cons] at hx
      rcases hx with hx | hx
      · exact Or.inl hx
      · exact Or.inr (diffGo_fin_entries c cs x hx)

theorem gains_entries (closes : List ℚ) :
    ∀ x ∈ gains closes, ∃ q, x = PFloat.fin q ∧ 0 ≤ q := by
  intro x hx
  simp only [gains, List.mem_map] at hx
  obtain ⟨d, hd, hxd⟩ := hx
  rcases diffP_entries closes d hd with hnan | ⟨q, hq⟩
  · subst hnan
    rw [← hxd]
    exact ⟨0, by simp [PFloat.gt, PFloat.lt], le_refl 0⟩
  · subst hq
    rw [← hxd]
    by_cases h : 0 < q
    · exact ⟨q, by simp [PFloat.gt, PFloat.lt, h], le_of_lt h⟩
    · exact ⟨0, by simp [PFloat.gt, PFloat.lt, h], le_refl 0⟩

theorem losses_entries (closes : List ℚ) :
    ∀ x ∈ losses closes, ∃ q, x = PFloat.fin q ∧ 0 ≤ q := by
  intro x hx
  simp only [losses, List.mem_map] at hx
  obtain ⟨d, hd, hxd⟩ := hx
  rcases diffP_entries closes d hd with hnan | ⟨q, hq⟩
  · subst hnan
    rw [← hxd]
    exact ⟨0, by simp [PFloat.lt], le_refl 0⟩
  · subst hq
    rw [← hxd]
    by_cases h : q < 0
    · exact ⟨-q, by simp [PFloat.lt, h, PFloat.neg], by linarith⟩
    · exact ⟨0, by simp [PFloat.lt, h], le_refl 0⟩

theorem zipWith_getElem?_some {α β γ : Type} {f : α → β → γ}
    {as : List α} {bs : List β} {i : ℕ} {v : γ}
    (h : (List.zipWith f as bs)[i]? = some v) :
    ∃ a b, as[i]? = some a ∧ bs[i]? = some b ∧ v = f a b := by
  rw [List.getElem?_zipWith] at h
  cases ha : as[i]? with
  | none => rw [ha] at h; cases h
  | some a =>
      cases hb : bs[i]? with
      | none => rw [ha, hb] at h; cases h
      | some b =>
          rw [ha, hb] at h
          exact ⟨a, b, rfl, rfl, (Option.some.inj h).symm⟩

theorem ewmGo_length (a s : ℚ) (xs : List ℚ) :
    (ewmGo a s xs).length = xs.length + 1 := by
  induction xs generalizing s with
  | nil => rfl
  | cons y ys ih => simp [ewmGo, ih]

theorem ewm_length (span : ℕ) (closes : List ℚ) :
    (ewm span closes).length = closes.length := by
  cases closes with
  | nil => rfl
  | cons c cs => simp [ewm, ewmGo_length]

theorem ewmGo_getElem?_zero (a s : ℚ) (xs : List ℚ) :
    (ewmGo a s xs)[0]? = some s := by
  cases xs <;> simp [ewmGo]

theorem ewmGo_rec (a : ℚ) (xs : List ℚ) :
    ∀ (s : ℚ) (i : ℕ) (x y : ℚ), xs[i]? = some x →
      (ewmGo a s xs)[i]? = some y →
      (ewmGo a s xs)[i + 1]? = some (a * x + (1 - a) * y) := by
  induction xs with
  | nil => intro s i x y hx _; simp at hx
  | cons z zs ih =>
      intro s i x y hx hy
      cases i with
      | zero =>
          have hxz : z = x := by simpa using hx
          have hys : s = y := by
            have h0 : (ewmGo a s (z :: zs))[0]? = some s := by simp [ewmGo]
            rw [h0] at hy
            exact Option.some.inj hy
          subst hxz; subst hys
          simp only [ewmGo, List.getElem?_cons_succ]
          exact ewmGo_getElem?_zero a _ zs
      | succ j =>
          have hx' : zs[j]? = some x := by simpa using hx
          have hy' : (ewmGo a (a * z + (1 - a) * s) zs)[j]? = some y := by
            simpa [ewmGo] using hy
          have := ih (a * z + (1 - a) * s) j x y hx' hy'
          simpa [ewmGo] using this

theorem ewm_getElem?_zero (span : ℕ) (closes : List ℚ) :
    (ewm span closes)[0]? = closes[0]? := by
  cases closes with
  | nil => rfl
  | cons c cs => simp [ewm, ewmGo_getElem?_zero]

theorem ewm_rec (span : ℕ) (closes : List ℚ) (i : ℕ) (x y : ℚ)
    (hx : closes[i + 1]? = some x) (hy : (ewm span closes)[i]? = some y) :
    (ewm span closes)[i + 1]? =
      some ((2 / ((span : ℚ) + 1)) * x + (1 - 2 / ((span : ℚ) + 1)) * y) := by
  cases closes with
  | nil => simp at hx
  | cons c cs =>
      have hx' : cs[i]? = some x := by simpa using hx
      exact ewmGo_rec (2 / ((span : ℚ) + 1)) cs c i x y hx' (by simpa [ewm] using hy)

theorem length_macd_list (closes : List ℚ) :
    (macd_list closes).length = closes.length := by
  simp [macd_list, List.length_zipWith, ewm_length]

theorem length_signal_list (closes : List ℚ) :
    (signal_list closes).length = closes.length := by
  simp [signal_list, ewm_length, length_macd_list]

theorem rsiPoint_nan_left (l : PFloat) : rsiPoint PFloat.nan l = PFloat.nan := by
  rw [rsiPoint, PFloat.div_nan_left, PFloat.add_fin_nan, PFloat.div_nan_right,
    PFloat.sub_fin_nan]

theorem rsiPoint_fin_nan (g : ℚ) :
    rsiPoint (PFloat.fin g) PFloat.nan = PFloat.nan := by
  rw [rsiPoint, PFloat.div_nan_right, PFloat.add_fin_nan, PFloat.div_nan_right,
    PFloat.sub_fin_nan]

theorem rsiPoint_saturate {g : ℚ} (hg : 0 < g) :
    rsiPoint (PFloat.fin g) (PFloat.fin 0) = PFloat.fin 100 := by
  rw [rsiPoint, PFloat.div_fin_zero_pos hg, PFloat.add_fin_inf, PFloat.div_fin_inf,
    PFloat.sub_fin_fin]
  norm_num

theorem rsiPoint_zero_zero :
    rsiPoint (PFloat.fin 0) (PFloat.fin 0) = PFloat.nan := by
  rw [rsiPoint, PFloat.div_zero_zero, PFloat.add_fin_nan, PFloat.div_nan_right,
    PFloat.sub_fin_nan]

theorem rsiPoint_fin_pos {g l : ℚ} (hg : 0 ≤ g) (hl : 0 < l) :
    rsiPoint (PFloat.fin g) (PFloat.fin l) =
      PFloat.fin (100 - 100 / (1 + g / l)) := by
  have hr : 0 ≤ g / l := div_nonneg hg (le_of_lt hl)
  have h1 : (1 : ℚ) + g / l ≠ 0 := by linarith
  rw [rsiPoint, PFloat.div_fin_fin g (ne_of_gt hl), PFloat.add_fin_fin,
    PFloat.div_fin_fin 100 h1, PFloat.sub_fin_fin]

theorem rsi_value_bounds {r : ℚ} (hr : 0 ≤ r) :
    0 ≤ 100 - 100 / (1 + r) ∧ 100 - 100 / (1 + r) ≤ 100 := by
  have h1 : (0 : ℚ) < 1 + r := by linarith
  constructor
  · have : 100 / (1 + r) ≤ 100 := by
      rw [div_le_iff₀ h1]; nlinarith
    linarith
  · have : 0 ≤ 100 / (1 + r) := div_nonneg (by norm_num) (le_of_lt h1)
    linarith

theorem length_gains (closes : List ℚ) : (gains closes).length = closes.length := by
  have hd : ∀ (p : PFloat) (l : List PFloat), (diffGo p l).length = l.length := by
    intro p l
    induction l generalizing p with
    | nil => rfl
    | cons y ys ih => simp [diffGo, ih]
  cases closes with
  | nil => rfl
  | cons c cs => simp [gains, diffP, hd]

theorem length_losses (closes : List ℚ) : (losses closes).length = closes.length := by
  have hd : ∀ (p : PFloat) (l : List PFloat), (diffGo p l).length = l.length := by
    intro p l
    induction l generalizing p with
    | nil => rfl
    | cons y ys ih => simp [diffGo, ih]
  cases closes with
  | nil => rfl
  | cons c cs => simp [losses, diffP, hd]

theorem length_rsiSeries (closes : List ℚ) :
    (rsiSeries closes).length = closes.length := by
  simp [rsiSeries, gainAvg, lossAvg, List.length_zipWith, length_rollingMean,
    length_gains, length_losses]

theorem getLast?_of_ne_nil {α : Type} {l : List α} (h : l ≠ []) :
    ∃ c, l.getLast? = some c := by
  cases hl : l.getLast? with
  | some c => exact ⟨c, rfl⟩
  | none => exact absurd (List.getLast?_eq_none_iff.mp hl) h

/-! ## The claims. -/

/-- C3: for an instrument whose provider series is empty, `full_analysis`
returns the structured error dictionary `{"오류": ...}` as an ordinary value
(`Except.ok`), not an exception, and returns it before any
indicator/interpretation/forecast computation is attempted. -/
theorem claim_C3_empty_series_structured_error (primary : Option ℚ) (code name : String) :
    full_analysis primary code name [] =
      Except.ok (FullResult.dataError
        (name ++ ("(") ++ code ++ (") 데이터를 가져오는데 실패했습니다."))) := rfl

/-- C2 (code bug): `compare_sector_performance` can never return its table
once two instruments have non-empty series — line 262 reinterprets the
integer row index as nanosecond timestamps and validates them against
business-day frequency, raising `ValueError` for any row count of at
least 2, so the claimed "one row per instrument with data, sorted by total
return" output is unreachable there. -/
theorem claim_C2_comparison_raises_with_two_rows :
    compare_sector_performance (fun _ => PFloat.fin 0)
      [(("A"), (("001"), [1, 2])), (("B"), (("002"), [1, 3]))] =
      Except.error
        ("ValueError: Inferred frequency None does not conform to passed frequency B") := rfl

/-- C9: the Sharpe-like ratio of the cross-sectional comparison equals
`(total return / 100) / (volatility / 100)` whenever the volatility is a
non-zero finite value, and is exactly the finite sentinel `0` (never `NaN`
or an infinity, and never an exception) when the volatility is zero; the
per-row field is computed by exactly this rule. -/
theorem claim_C9_sharpe_ratio (t v : ℚ) (hv : v ≠ 0) :
    sharpe_calc (PFloat.fin t) (PFloat.fin 0) = PFloat.fin 0 ∧
    sharpe_calc (PFloat.fin t) (PFloat.fin v) = PFloat.fin ((t / 100) / (v / 100)) ∧
    (∀ (volOf : List ℚ → PFloat) (name code : String) (closes : List ℚ),
      (compare_row volOf name code closes).sharpe =
        sharpe_calc (compare_row volOf name code closes).totalReturn (volOf closes)) := by
  refine ⟨?_, ?_, ?_⟩
  · simp [sharpe_calc, PFloat.beq]
  · have h100 : (100 : ℚ) ≠ 0 := by norm_num
    have hv100 : v / 100 ≠ 0 := div_ne_zero hv h100
    rw [sharpe_calc, if_neg (by simp [PFloat.beq, hv]),
      PFloat.div_fin_fin t h100, PFloat.div_fin_fin v h100,
      PFloat.div_fin_fin (t / 100) hv100]
  · intro volOf name code closes
    rfl

/-- Witness for C9 at `total return = 10`, `volatility = 20`. -/
theorem claim_C9_sharpe_ratio_witness :
    sharpe_calc (PFloat.fin 10) (PFloat.fin 0) = PFloat.fin 0 ∧
    sharpe_calc (PFloat.fin 10) (PFloat.fin 20) =
      PFloat.fin ((10 / 100) / (20 / 100)) ∧
    (∀ (volOf : List ℚ → PFloat) (name code : String) (closes : List ℚ),
      (compare_row volOf name code closes).sharpe =
        sharpe_calc (compare_row volOf name code closes).totalReturn (volOf closes)) :=
  claim_C9_sharpe_ratio 10 20 (by norm_num)

/-- C1: `predict_price` never propagates a fitting exception — whatever the
primary ARIMA fit does (`primary` is its abstracted outcome, `none` being
any fitting/forecast failure, as for a 3-point series below the model's
minimum), a non-empty series always yields `Except.ok`; on primary failure
the forecast is the ordinary-least-squares line over the zero-based time
index extrapolated to index `n + 4` (5 business days ahead); only the
empty series — where the fallback fit itself fails — surfaces an error. -/
theorem claim_C1_forecast_never_raises (closes : List ℚ) (h : closes ≠ []) :
    (∀ primary, ∃ f, predict_price primary 5 closes = Except.ok f) ∧
    (∃ f, predict_price none 5 closes = Except.ok f ∧
      closes.getLast? = some f.current ∧
      f.predicted = linreg_intercept closes +
        linreg_slope closes * ((closes.length + 4 : ℕ) : ℚ)) ∧
    (∀ primary, predict_price primary 5 ([] : List ℚ) =
      Except.error ("ValueError: Found array with 0 sample(s)")) := by
  obtain ⟨c, hc⟩ := getLast?_of_ne_nil h
  refine ⟨?_, ?_, ?_⟩
  · intro primary
    cases he : predict_price primary 5 closes with
    | ok f => exact ⟨f, rfl⟩
    | error s => cases primary <;> simp [predict_price, hc] at he
  · cases he : predict_price none 5 closes with
    | error s => simp [predict_price, hc] at he
    | ok f =>
        have hf := he
        simp only [predict_price, hc] at hf
        rw [Except.ok.injEq] at hf
        refine ⟨f, rfl, ?_, ?_⟩
        · rw [← hf]
          exact hc
        · rw [← hf]
          norm_num
  · intro primary
    rfl

/-- C4: for a series of at least 20 bars with strictly positive closes,
`analyze_trend` reports "상승" (Up) exactly when the last close is strictly
greater than the 20-period moving average at the last bar (anything else,
ties included, is "하락"/Down), and the reported strength is the
nonnegative percentage deviation `|close - MA| / MA * 100`. -/
theorem claim_C4_trend_up_iff (closes : List ℚ) (h20 : 20 ≤ closes.length)
    (hpos : ∀ c ∈ closes, 0 < c) :
    ∃ c m, closes.getLast? = some c ∧
      m = (closes.drop (closes.length - 20)).sum / 20 ∧
      analyze_trend closes = Except.ok
        { trend := if m < c then ("상승") else ("하락")
        , strength := PFloat.fin (|c - m| / m * 100)
        , current := c
        , ma := PFloat.fin m } ∧
      0 ≤ |c - m| / m * 100 ∧
      ((if m < c then ("상승") else ("하락")) = ("상승") ↔ m < c) := by
  have hne : closes ≠ [] := by
    intro he
    rw [he] at h20
    simp at h20
  obtain ⟨c, hc⟩ := getLast?_of_ne_nil hne
  have hdrop_ne : closes.drop (closes.length - 20) ≠ [] := by
    intro he
    have hlen := congrArg List.length he
    simp [List.length_drop] at hlen
    omega
  have hsum_pos : 0 < (closes.drop (closes.length - 20)).sum :=
    List.sum_pos _ (fun x hx => hpos x (List.mem_of_mem_drop hx)) hdrop_ne
  set m : ℚ := (closes.drop (closes.length - 20)).sum / 20 with hm_def
  have hm_pos : 0 < m := by
    rw [hm_def]
    positivity
  have hma : (rollingMean 20 (closes.map PFloat.fin)).getLast? = some (PFloat.fin m) := by
    rw [List.getLast?_eq_getElem?, length_rollingMean, List.length_map]
    have h1 : 20 ≤ (closes.length - 1) + 1 := by omega
    have h2 : closes.length - 1 < (closes.map PFloat.fin).length := by
      rw [List.length_map]
      omega
    rw [rollingMean_getElem?_ge (closes.map PFloat.fin) h1 h2, winSlice_map_fin,
      PFloat.sum_map_fin, PFloat.div_fin_fin _ (by norm_num : ((20 : ℕ) : ℚ) ≠ 0)]
    have h3 : closes.length - 1 + 1 = closes.length := by omega
    rw [h3, List.take_length]
    norm_num [hm_def]
  have heval : analyze_trend closes = Except.ok
      { trend := if m < c then ("상승") else ("하락")
      , strength := PFloat.fin (|c - m| / m * 100)
      , current := c
      , ma := PFloat.fin m } := by
    simp only [analyze_trend, hc, hma]
    rw [PFloat.gt_fin_fin, PFloat.sub_fin_fin, PFloat.abs_fin,
      PFloat.div_fin_fin _ (ne_of_gt hm_pos), PFloat.mul_fin_fin]
    simp
  refine ⟨c, m, hc, hm_def, heval, ?_, ?_⟩
  · exact mul_nonneg (div_nonneg (abs_nonneg _) (le_of_lt hm_pos)) (by norm_num)
  · by_cases hmc : m < c <;> simp [hmc]

/-- Witness for C4 at a 20-bar positive series ending with a jump. -/
theorem claim_C4_trend_up_iff_witness :
    ∃ c m, c20.getLast? = some c ∧
      m = (c20.drop (c20.length - 20)).sum / 20 ∧
      analyze_trend c20 = Except.ok
        { trend := if m < c then ("상승") else ("하락")
        , strength := PFloat.fin (|c - m| / m * 100)
        , current := c
        , ma := PFloat.fin m } ∧
      0 ≤ |c - m| / m * 100 ∧
      ((if m < c then ("상승") else ("하락")) = ("상승") ↔ m < c) :=
  claim_C4_trend_up_iff c20 (by norm_num [c20]) (by norm_num [c20])

theorem gains_const15 :
    gains const15 =
      [PFloat.fin 0, PFloat.fin 0, PFloat.fin 0, PFloat.fin 0, PFloat.fin 0,
       PFloat.fin 0, PFloat.fin 0, PFloat.fin 0, PFloat.fin 0, PFloat.fin 0,
       PFloat.fin 0, PFloat.fin 0, PFloat.fin 0, PFloat.fin 0, PFloat.fin 0] := by
  norm_num [gains, const15, diffP, diffGo, PFloat.sub_fin_fin, PFloat.gt_nan_left,
    PFloat.gt_fin_fin]

theorem losses_const15 :
    losses const15 =
      [PFloat.fin 0, PFloat.fin 0, PFloat.fin 0, PFloat.fin 0, PFloat.fin 0,
       PFloat.fin 0, PFloat.fin 0, PFloat.fin 0, PFloat.fin 0, PFloat.fin 0,
       PFloat.fin 0, PFloat.fin 0, PFloat.fin 0, PFloat.fin 0, PFloat.fin 0] := by
  norm_num [losses, const15, diffP, diffGo, PFloat.sub_fin_fin, PFloat.lt_nan_left,
    PFloat.lt_fin_fin]

theorem gainAvg_const15_14 : (gainAvg const15)[14]? = some (PFloat.fin 0) := by
  unfold gainAvg
  rw [gains_const15]
  rw [rollingMean_getElem?_ge _ (by norm_num) (by norm_num)]
  norm_num [winSlice, PFloat.sum, PFloat.add_fin_fin, PFloat.div_fin_fin]

theorem lossAvg_const15_14 : (lossAvg const15)[14]? = some (PFloat.fin 0) := by
  unfold lossAvg
  rw [losses_const15]
  rw [rollingMean_getElem?_ge _ (by norm_num) (by norm_num)]
  norm_num [winSlice, PFloat.sum, PFloat.add_fin_fin, PFloat.div_fin_fin]

theorem rsi_const15_last : (rsiSeries const15).getLast? = some PFloat.nan := by
  rw [List.getLast?_eq_getElem?, length_rsiSeries]
  have h15 : const15.length = 15 := by norm_num [const15]
  rw [h15]
  show (rsiSeries const15)[14]? = some PFloat.nan
  unfold rsiSeries
  rw [List.getElem?_zipWith, gainAvg_const15_14, lossAvg_const15_14]
  simp [rsiPoint_zero_zero]

theorem gains_inc15 :
    gains inc15 =
      [PFloat.fin 0, PFloat.fin 1, PFloat.fin 1, PFloat.fin 1, PFloat.fin 1,
       PFloat.fin 1, PFloat.fin 1, PFloat.fin 1, PFloat.fin 1, PFloat.fin 1,
       PFloat.fin 1, PFloat.fin 1, PFloat.fin 1, PFloat.fin 1, PFloat.fin 1] := by
  norm_num [gains, inc15, diffP, diffGo, PFloat.sub_fin_fin, PFloat.gt_nan_left,
    PFloat.gt_fin_fin]

theorem losses_inc15 :
    losses inc15 =
      [PFloat.fin 0, PFloat.fin 0, PFloat.fin 0, PFloat.fin 0, PFloat.fin 0,
       PFloat.fin 0, PFloat.fin 0, PFloat.fin 0, PFloat.fin 0, PFloat.fin 0,
       PFloat.fin 0, PFloat.fin 0, PFloat.fin 0, PFloat.fin 0, PFloat.fin 0] := by
  norm_num [losses, inc15, diffP, diffGo, PFloat.sub_fin_fin, PFloat.lt_nan_left,
    PFloat.lt_fin_fin]

theorem gainAvg_inc15_13 : (gainAvg inc15)[13]? = some (PFloat.fin (13 / 14)) := by
  unfold gainAvg
  rw [gains_inc15]
  rw [rollingMean_getElem?_ge _ (by norm_num) (by norm_num)]
  norm_num [winSlice, PFloat.sum, PFloat.add_fin_fin, PFloat.div_fin_fin]

theorem lossAvg_inc15_13 : (lossAvg inc15)[13]? = some (PFloat.fin 0) := by
  unfold lossAvg
  rw [losses_inc15]
  rw [rollingMean_getElem?_ge _ (by norm_num) (by norm_num)]
  norm_num [winSlice, PFloat.sum, PFloat.add_fin_fin, PFloat.div_fin_fin]

theorem gains_inc14 :
    gains inc14 =
      [PFloat.fin 0, PFloat.fin 1, PFloat.fin 1, PFloat.fin 1, PFloat.fin 1,
       PFloat.fin 1, PFloat.fin 1, PFloat.fin 1, PFloat.fin 1, PFloat.fin 1,
       PFloat.fin 1, PFloat.fin 1, PFloat.fin 1, PFloat.fin 1] := by
  norm_num [gains, inc14, diffP, diffGo, PFloat.sub_fin_fin, PFloat.gt_nan_left,
    PFloat.gt_fin_fin]

theorem losses_inc14 :
    losses inc14 =
      [PFloat.fin 0, PFloat.fin 0, PFloat.fin 0, PFloat.fin 0, PFloat.fin 0,
       PFloat.fin 0, PFloat.fin 0, PFloat.fin 0, PFloat.fin 0, PFloat.fin 0,
       PFloat.fin 0, PFloat.fin 0, PFloat.fin 0, PFloat.fin 0] := by
  norm_num [losses, inc14, diffP, diffGo, PFloat.sub_fin_fin, PFloat.lt_nan_left,
    PFloat.lt_fin_fin]

theorem gainAvg_inc14_13 : (gainAvg inc14)[13]? = some (PFloat.fin (13 / 14)) := by
  unfold gainAvg
  rw [gains_inc14]
  rw [rollingMean_getElem?_ge _ (by norm_num) (by norm_num)]
  norm_num [winSlice, PFloat.sum, PFloat.add_fin_fin, PFloat.div_fin_fin]

theorem lossAvg_inc14_13 : (lossAvg inc14)[13]? = some (PFloat.fin 0) := by
  unfold lossAvg
  rw [losses_inc14]
  rw [rollingMean_getElem?_ge _ (by norm_num) (by norm_num)]
  norm_num [winSlice, PFloat.sum, PFloat.add_fin_fin, PFloat.div_fin_fin]

theorem rsi_inc14_last : (rsiSeries inc14).getLast? = some (PFloat.fin 100) := by
  rw [List.getLast?_eq_getElem?, length_rsiSeries]
  have h14 : inc14.length = 14 := by norm_num [inc14]
  rw [h14]
  show (rsiSeries inc14)[13]? = some (PFloat.fin 100)
  unfold rsiSeries
  rw [List.getElem?_zipWith, gainAvg_inc14_13, lossAvg_inc14_13]
  simp [rsiPoint_saturate (by norm_num : (0 : ℚ) < 13 / 14)]

/-- C10 (amended): for every series whose RSI column is non-empty and whose
last cell is `NaN` (undefined), `analyze_momentum` does not fail and does
not report an undefined status: neither `NaN > 70` nor `NaN < 30` holds,
so the status is "중립" (Neutral) with the undefined RSI value. -/
theorem claim_C10_undefined_rsi_neutral (closes : List ℚ)
    (h2 : (rsiSeries closes).getLast? = some PFloat.nan) :
    analyze_momentum closes =
      Except.ok { rsi := PFloat.nan, status := ("중립") } := by
  unfold analyze_momentum
  rw [h2]
  simp [PFloat.gt_nan_left, PFloat.lt_nan_left]

/-- Witness for the amended C10 at 15 constant closes, whose last RSI cell
is `NaN` through the `0/0` degeneracy. -/
theorem claim_C10_undefined_rsi_neutral_witness :
    analyze_momentum const15 =
      Except.ok { rsi := PFloat.nan, status := ("중립") } :=
  claim_C10_undefined_rsi_neutral const15 rsi_const15_last

/-- Counterexample to C10 as stated: on the empty series (fewer than 15
bars) `analyze_momentum` raises `IndexError` instead of returning Neutral,
and on a 14-bar strictly increasing series (also fewer than 15 bars) the
RSI is already defined — the leading `diff` `NaN` is replaced by a zero
gain/loss before averaging — and equals 100, so the status is "과매수"
(Overbought), not "중립" (Neutral). -/
theorem claim_C10_counterexample :
    analyze_momentum ([] : List ℚ) =
      Except.error ("IndexError: single positional indexer is out-of-bounds") ∧
    analyze_momentum inc14 =
      Except.ok { rsi := PFloat.fin 100, status := ("과매수") } ∧
    ("과매수") ≠ ("중립") := by
  refine ⟨rfl, ?_, by simp⟩
  simp only [analyze_momentum, rsi_inc14_last]
  norm_num [PFloat.gt_fin_fin]

/-- C5: wherever the 14-period RSI column is a finite (defined) value it
lies in `[0, 100]`; when the rolling average loss is `0` and the rolling
average gain is positive the RSI is exactly `100`; and when both averages
are `0` the cell is `NaN` — the computation is total and never raises. -/
theorem claim_C5_rsi_range (closes : List ℚ) :
    (∀ (i : ℕ) (q : ℚ), (rsiSeries closes)[i]? = some (PFloat.fin q) →
       0 ≤ q ∧ q ≤ 100) ∧
    (∀ (i : ℕ) (g : ℚ), (gainAvg closes)[i]? = some (PFloat.fin g) → 0 < g →
       (lossAvg closes)[i]? = some (PFloat.fin 0) →
       (rsiSeries closes)[i]? = some (PFloat.fin 100)) ∧
    (∀ (i : ℕ), (gainAvg closes)[i]? = some (PFloat.fin 0) →
       (lossAvg closes)[i]? = some (PFloat.fin 0) →
       (rsiSeries closes)[i]? = some PFloat.nan) := by
  refine ⟨?_, ?_, ?_⟩
  · intro i q hq
    unfold rsiSeries at hq
    obtain ⟨g, l, hg, hl, hv⟩ := zipWith_getElem?_some hq
    unfold gainAvg at hg
    unfold lossAvg at hl
    have hgc := rollingMean_entry_cases (gains closes) (by norm_num)
      (gains_entries closes) hg
    have hlc := rollingMean_entry_cases (losses closes) (by norm_num)
      (losses_entries closes) hl
    rcases hgc with hgnan | ⟨qg, hqg0, hgfin⟩
    · subst hgnan
      rw [rsiPoint_nan_left] at hv
      cases hv
    rcases hlc with hlnan | ⟨ql, hql0, hlfin⟩
    · subst hgfin; subst hlnan
      rw [rsiPoint_fin_nan] at hv
      cases hv
    subst hgfin; subst hlfin
    by_cases hql : ql = 0
    · subst hql
      by_cases hqg : qg = 0
      · subst hqg
        rw [rsiPoint_zero_zero] at hv
        cases hv
      · have hqgpos : 0 < qg := lt_of_le_of_ne hqg0 (Ne.symm hqg)
        rw [rsiPoint_saturate hqgpos] at hv
        have hq : q = 100 := PFloat.fin.inj hv
        subst hq
        norm_num
    · have hqlpos : 0 < ql := lt_of_le_of_ne hql0 (Ne.symm hql)
      rw [rsiPoint_fin_pos hqg0 hqlpos] at hv
      have hq100 : q = 100 - 100 / (1 + qg / ql) := PFloat.fin.inj hv
      subst hq100
      exact rsi_value_bounds (div_nonneg hqg0 (le_of_lt hqlpos))
  · intro i g hg hgpos hl
    unfold rsiSeries
    rw [List.getElem?_zipWith, hg, hl]
    simp [rsiPoint_saturate hgpos]
  · intro i hg hl
    unfold rsiSeries
    rw [List.getElem?_zipWith, hg, hl]
    simp [rsiPoint_zero_zero]

/-- Witness for C5: at 15 increasing closes the saturating branch yields
exactly RSI 100 (which also exercises the `[0,100]` bound), and at 15
constant closes the doubly-degenerate window yields the `NaN` cell. -/
theorem claim_C5_rsi_range_witness :
    ((0 : ℚ) ≤ 100 ∧ (100 : ℚ) ≤ 100) ∧
    (rsiSeries inc15)[13]? = some (PFloat.fin 100) ∧
    (rsiSeries const15)[14]? = some PFloat.nan := by
  have hsat := (claim_C5_rsi_range inc15).2.1 13 (13 / 14) gainAvg_inc15_13
    (by norm_num) lossAvg_inc15_13
  exact ⟨(claim_C5_rsi_range inc15).1 13 100 hsat, hsat,
    (claim_C5_rsi_range const15).2.2 14 gainAvg_const15_14 lossAvg_const15_14⟩

/-- C6: the MACD and Signal columns of the indicator frame are defined
(finite) at every bar, the first included, for any series: EMA12/EMA26 are
the recursive exponential moving averages seeded by the first close with
bias adjustment disabled (`ema[0] = close[0]`,
`ema[i+1] = α·close[i+1] + (1-α)·ema[i]`, `α = 2/(span+1)`),
`MACD = EMA12 - EMA26` pointwise, and Signal is the 9-span EMA of MACD. -/
theorem claim_C6_macd_signal_defined (closes : List ℚ) :
    ((calculate_technical_indicators closes).macd.length = closes.length ∧
     (calculate_technical_indicators closes).signal.length = closes.length) ∧
    (∀ i, i < closes.length →
      ∃ q, (calculate_technical_indicators closes).macd[i]? = some (PFloat.fin q)) ∧
    (∀ i, i < closes.length →
      ∃ q, (calculate_technical_indicators closes).signal[i]? = some (PFloat.fin q)) ∧
    ((ewm 12 closes)[0]? = closes[0]? ∧ (ewm 26 closes)[0]? = closes[0]?) ∧
    (∀ i x y, closes[i + 1]? = some x → (ewm 12 closes)[i]? = some y →
       (ewm 12 closes)[i + 1]? = some (2 / 13 * x + (1 - 2 / 13) * y)) ∧
    (∀ i x y, closes[i + 1]? = some x → (ewm 26 closes)[i]? = some y →
       (ewm 26 closes)[i + 1]? = some (2 / 27 * x + (1 - 2 / 27) * y)) ∧
    (macd_list closes =
       List.zipWith (fun a b => a - b) (ewm 12 closes) (ewm 26 closes) ∧
     signal_list closes = ewm 9 (macd_list closes)) ∧
    (∀ i x y, (macd_list closes)[i + 1]? = some x →
       (signal_list closes)[i]? = some y →
       (signal_list closes)[i + 1]? = some (2 / 10 * x + (1 - 2 / 10) * y)) := by
  refine ⟨?_, ?_, ?_, ⟨ewm_getElem?_zero 12 closes, ewm_getElem?_zero 26 closes⟩,
    ?_, ?_, ⟨rfl, rfl⟩, ?_⟩
  · constructor <;>
      simp [calculate_technical_indicators, length_macd_list, length_signal_list]
  · intro i hi
    have hi' : i < (macd_list closes).length := by
      rw [length_macd_list]
      exact hi
    exact ⟨(macd_list closes).get ⟨i, hi'⟩,
      by simp [calculate_technical_indicators, List.getElem?_map,
        List.getElem?_eq_getElem hi']⟩
  · intro i hi
    have hi' : i < (signal_list closes).length := by
      rw [length_signal_list]
      exact hi
    exact ⟨(signal_list closes).get ⟨i, hi'⟩,
      by simp [calculate_technical_indicators, List.getElem?_map,
        List.getElem?_eq_getElem hi']⟩
  · intro i x y hx hy
    have h := ewm_rec 12 closes i x y hx hy
    norm_num at h ⊢
    exact h
  · intro i x y hx hy
    have h := ewm_rec 26 closes i x y hx hy
    norm_num at h ⊢
    exact h
  · intro i x y hx hy
    have h := ewm_rec 9 (macd_list closes) i x y hx hy
    norm_num at h ⊢
    exact h

/-- Witness for C6 at the series `[1, 2]`. -/
theorem claim_C6_macd_signal_defined_witness :
    (∃ q, (calculate_technical_indicators [1, 2]).macd[0]? = some (PFloat.fin q)) ∧
    (∃ q, (calculate_technical_indicators [1, 2]).signal[1]? = some (PFloat.fin q)) ∧
    (ewm 12 ([1, 2] : List ℚ))[1]? = some (2 / 13 * 2 + (1 - 2 / 13) * 1) := by
  refine ⟨(claim_C6_macd_signal_defined [1, 2]).2.1 0 (by norm_num),
    (claim_C6_macd_signal_defined [1, 2]).2.2.1 1 (by norm_num), ?_⟩
  exact (claim_C6_macd_signal_defined [1, 2]).2.2.2.2.1 0 2 1 (by norm_num)
    (by rw [ewm_getElem?_zero]; norm_num)

/-- C7: on a series of at least 120 bars the four simple moving-average
columns MA5/MA20/MA60/MA120 have exactly `w - 1` undefined (`NaN`) leading
cells and equal the rolling mean of the trailing `w` closes at every later
bar; for a series shorter than the window the whole column is `NaN`; and
the transform extends the frame without altering the input close column. -/
theorem claim_C7_ma_leading_nan (closes : List ℚ) :
    ((calculate_technical_indicators closes).ma5 = ma_col 5 closes ∧
     (calculate_technical_indicators closes).ma20 = ma_col 20 closes ∧
     (calculate_technical_indicators closes).ma60 = ma_col 60 closes ∧
     (calculate_technical_indicators closes).ma120 = ma_col 120 closes) ∧
    (120 ≤ closes.length →
      ∀ w ∈ ([5, 20, 60, 120] : List ℕ),
        (∀ i, i + 1 < w → (ma_col w closes)[i]? = some PFloat.nan) ∧
        (∀ i, w ≤ i + 1 → i < closes.length →
          (ma_col w closes)[i]? =
            some (PFloat.fin
              (((closes.take (i + 1)).drop (i + 1 - w)).sum / (w : ℚ))))) ∧
    (∀ w : ℕ, 0 < w → closes.length < w → ∀ i, i < closes.length →
      (ma_col w closes)[i]? = some PFloat.nan) ∧
    (calculate_technical_indicators closes).close = closes.map PFloat.fin := by
  refine ⟨⟨rfl, rfl, rfl, rfl⟩, ?_, ?_, rfl⟩
  · intro h120 w hw
    have hw120 : w ≤ 120 ∧ 0 < w := by
      fin_cases hw <;> norm_num
    constructor
    · intro i hi
      have hiw : i < closes.length := by omega
      unfold ma_col
      exact rollingMean_getElem?_lt _ hi (by simpa using hiw)
    · intro i h1 h2
      have hw0 : ((w : ℕ) : ℚ) ≠ 0 := by
        exact_mod_cast Nat.pos_iff_ne_zero.mp hw120.2
      unfold ma_col
      rw [rollingMean_getElem?_ge _ h1 (by simpa using h2), winSlice_map_fin,
        PFloat.sum_map_fin, PFloat.div_fin_fin _ hw0]
  · intro w hw0 hlen i hi
    unfold ma_col
    exact rollingMean_getElem?_lt _ (by omega) (by simpa using hi)

/-- Witness for C7 at 120 constant closes (and a 2-bar series for the
short-series branch). -/
theorem claim_C7_ma_leading_nan_witness :
    (ma_col 20 c120)[10]? = some PFloat.nan ∧
    (ma_col 20 c120)[19]? = some (PFloat.fin ((c120.take 20).sum / (20 : ℚ))) ∧
    (ma_col 5 ([1, 2] : List ℚ))[0]? = some PFloat.nan := by
  have h := (claim_C7_ma_leading_nan c120).2.1 (by simp [c120]) 20 (by simp)
  refine ⟨h.1 10 (by norm_num), ?_, ?_⟩
  · have h2 := h.2 19 (by norm_num) (by simp [c120])
    norm_num at h2
    exact h2
  · exact (claim_C7_ma_leading_nan ([1, 2] : List ℚ)).2.2.1 5 (by norm_num)
      (by norm_num) 0 (by norm_num)

theorem decide_fin_eq_nan (q : ℚ) :
    decide (PFloat.fin q = PFloat.nan) = false := rfl

theorem bars2_map_close : bars2.map Bar.close = ([1, 1] : List ℚ) := by
  norm_num [bars2, unitBar]

theorem pctChangeDropna_ones : pctChangeDropna [1, 1] = [PFloat.fin 0] := by
  norm_num [pctChangeDropna, pctGo, PFloat.div, PFloat.sub, PFloat.neg, PFloat.add,
    List.filter, decide_fin_eq_nan]

theorem analyze_trend_ones :
    analyze_trend [1, 1] =
      Except.ok { trend := ("하락"), strength := PFloat.nan, current := 1
                , ma := PFloat.nan } := by
  norm_num [analyze_trend, rollingMean, winSlice, List.range_succ,
    List.getLast?_cons_cons, List.getLast?_singleton, PFloat.sum, PFloat.add,
    PFloat.div, PFloat.sub, PFloat.neg, PFloat.abs, PFloat.mul, PFloat.gt, PFloat.lt]

theorem analyze_momentum_ones :
    analyze_momentum [1, 1] =
      Except.ok { rsi := PFloat.nan, status := ("중립") } := by
  norm_num [analyze_momentum, rsiSeries, rsiPoint, gainAvg, lossAvg, gains, losses,
    diffP, diffGo, rollingMean, winSlice, List.range_succ, List.getLast?_cons_cons,
    List.getLast?_singleton, PFloat.sum, PFloat.add, PFloat.div, PFloat.sub,
    PFloat.neg, PFloat.gt, PFloat.lt]

theorem analyze_volatility_ones :
    analyze_volatility [1, 1] =
      Except.ok { volSq := PFloat.nan, level := ("낮음") } := by
  unfold analyze_volatility
  rw [pctChangeDropna_ones]
  norm_num [rollingVar, winSlice, List.range_succ, List.getLast?_singleton,
    PFloat.sum, PFloat.add, PFloat.div, PFloat.sub, PFloat.neg, PFloat.mul,
    PFloat.gt, PFloat.lt]

theorem analyze_support_resistance_bars2 :
    analyze_support_resistance bars2 =
      Except.ok { current := 1, support := 1, resistance := 1
                , toSupport := PFloat.fin 0, toResistance := PFloat.fin 0 } := by
  norm_num [analyze_support_resistance, bars2, unitBar, List.getLast?_cons_cons,
    List.getLast?_singleton, List.min?, List.max?, PFloat.div, PFloat.mul]

theorem predict_price_ones :
    predict_price (some 2) 5 [1, 1] =
      Except.ok { current := 1, predicted := 2, change := PFloat.fin 100
                , direction := ("상승") } := by
  norm_num [predict_price, List.getLast?_cons_cons, List.getLast?_singleton,
    PFloat.div, PFloat.sub, PFloat.mul, PFloat.gt, PFloat.lt]

theorem macd_list_ones : macd_list [1, 1] = [0, 0] := by
  norm_num [macd_list, ewm, ewmGo]

theorem signal_list_ones : signal_list [1, 1] = [0, 0] := by
  rw [signal_list, macd_list_ones]
  norm_num [ewm, ewmGo]

theorem rsiSeries_ones : rsiSeries [1, 1] = [PFloat.nan, PFloat.nan] := by
  norm_num [rsiSeries, gainAvg, lossAvg, gains, losses, diffP, diffGo, rollingMean,
    winSlice, List.range_succ, rsiPoint, PFloat.sum, PFloat.add, PFloat.div,
    PFloat.sub, PFloat.neg, PFloat.gt, PFloat.lt]

theorem bb_status_ones : bb_status [1, 1] = ("중립") := by
  norm_num [bb_status, rollingMean, rollingVar, winSlice, List.range_succ,
    List.getLast?_cons_cons, List.getLast?_singleton, PFloat.sum, PFloat.add,
    PFloat.div, PFloat.sub, PFloat.neg, PFloat.mul, PFloat.gt, PFloat.lt]

theorem trailing_return_ones (k : ℕ) (hk : 2 < k) :
    trailing_return k [1, 1] = none := by
  unfold trailing_return
  rw [if_neg]
  simp
  omega

theorem full_analysis_bars2 :
    full_analysis (some 2) ("c") ("n") bars2 =
      Except.ok (FullResult.report
        { name := ("n"), code := ("c"), current := 1
        , trend := { trend := ("하락"), strength := PFloat.nan, current := 1
                   , ma := PFloat.nan }
        , momentum := { rsi := PFloat.nan, status := ("중립") }
        , volatility := { volSq := PFloat.nan, level := ("낮음") }
        , supportResistance := { current := 1, support := 1, resistance := 1
                               , toSupport := PFloat.fin 0
                               , toResistance := PFloat.fin 0 }
        , prediction := { current := 1, predicted := 2, change := PFloat.fin 100
                        , direction := ("상승") }
        , ret1m := none, ret3m := none, ret6m := none, ret1y := none
        , macdStatus := ("매도 신호"), bbStatus := ("중립")
        , rsiLast := PFloat.nan }) := by
  have hne : bars2.isEmpty = false := by norm_num [bars2]
  unfold full_analysis
  rw [hne]
  simp only [Bool.false_eq_true, if_false, bars2_map_close]
  rw [analyze_trend_ones, analyze_momentum_ones, analyze_volatility_ones,
    analyze_support_resistance_bars2, predict_price_ones]
  norm_num [calculate_technical_indicators, macd_list_ones, signal_list_ones,
    rsiSeries_ones, bb_status_ones, trailing_return_ones, trailing_return,
    List.getLast?_cons_cons, List.getLast?_singleton, PFloat.gt, PFloat.lt]

/-- C8: each trailing return of the full analysis at the
`{20, 60, 120, 250}`-bar lookbacks is present exactly when the series has
at least that many bars (absent — `None`, never zero — otherwise), and
where present it is the percentage change from the `k`-th most recent
close to the latest close; the four report fields are exactly these
values. -/
theorem claim_C8_trailing_returns :
    (∀ (closes : List ℚ) (k : ℕ), k ∈ ([20, 60, 120, 250] : List ℕ) →
      ((trailing_return k closes = none ↔ closes.length < k) ∧
       (∀ r : ℚ, closes[closes.length - k]? = some r → r ≠ 0 →
          k ≤ closes.length →
          trailing_return k closes =
            some (PFloat.fin
              ((closes.getD (closes.length - 1) 0 / r - 1) * 100))))) ∧
    (∀ (primary : Option ℚ) (code name : String) (bars : List Bar)
        (r : ReportStruct),
      full_analysis primary code name bars = Except.ok (FullResult.report r) →
        r.ret1m = trailing_return 20 (bars.map Bar.close) ∧
        r.ret3m = trailing_return 60 (bars.map Bar.close) ∧
        r.ret6m = trailing_return 120 (bars.map Bar.close) ∧
        r.ret1y = trailing_return 250 (bars.map Bar.close)) := by
  constructor
  · intro closes k _
    constructor
    · unfold trailing_return
      by_cases h : k ≤ closes.length
      · simp only [if_pos h]
        constructor
        · intro hs
          cases hs
        · intro hlt
          omega
      · simp only [if_neg h]
        constructor
        · intro _
          omega
        · intro _
          trivial
    · intro r hr hr0 hk
      unfold trailing_return
      rw [if_pos hk]
      have hgd : closes.getD (closes.length - k) 0 = r := by
        rw [List.getD_eq_getElem?_getD, hr]
        rfl
      rw [hgd, PFloat.div_fin_fin _ hr0, PFloat.sub_fin_fin, PFloat.mul_fin_fin]
  · intro primary code name bars r h
    cases hemp : bars.isEmpty with
    | true =>
        unfold full_analysis at h
        rw [hemp] at h
        simp at h
    | false =>
        unfold full_analysis at h
        rw [hemp] at h
        simp only [Bool.false_eq_true, if_false] at h
        cases ht : analyze_trend (bars.map Bar.close) with
        | error e => rw [ht] at h; cases h
        | ok t =>
        rw [ht] at h
        cases hm : analyze_momentum (bars.map Bar.close) with
        | error e => rw [hm] at h; cases h
        | ok m =>
        rw [hm] at h
        cases hv : analyze_volatility (bars.map Bar.close) with
        | error e => rw [hv] at h; cases h
        | ok v =>
        rw [hv] at h
        cases hsr : analyze_support_resistance bars with
        | error e => rw [hsr] at h; cases h
        | ok sr =>
        rw [hsr] at h
        cases hf : predict_price primary 5 (bars.map Bar.close) with
        | error e => rw [hf] at h; cases h
        | ok f =>
        rw [hf] at h
        simp only [Except.ok.injEq, FullResult.report.injEq] at h
        rw [← h]
        exact ⟨rfl, rfl, rfl, rfl⟩

/-- Witness for C8 at a 20-bar series (present and absent lookbacks) and at
a 2-bar full analysis. -/
theorem claim_C8_trailing_returns_witness :
    trailing_return 20 c20 =
      some (PFloat.fin ((c20.getD (c20.length - 1) 0 / 1 - 1) * 100)) ∧
    trailing_return 250 c20 = none ∧
    (∃ r : ReportStruct,
      full_analysis (some 2) ("c") ("n") bars2 = Except.ok (FullResult.report r) ∧
      r.ret1m = trailing_return 20 (bars2.map Bar.close)) := by
  refine ⟨?_, ?_, ?_⟩
  · exact ((claim_C8_trailing_returns.1 c20 20 (by norm_num)).2 1
      (by norm_num [c20]) (by norm_num) (by norm_num [c20]))
  · exact (claim_C8_trailing_returns.1 c20 250 (by norm_num)).1.mpr
      (by norm_num [c20])
  · refine ⟨_, full_analysis_bars2, ?_⟩
    exact (claim_C8_trailing_returns.2 (some 2) ("c") ("n") bars2 _
      full_analysis_bars2).1

/-- Witness for C1 at the 3-point series `[1, 2, 3]`. -/
theorem claim_C1_forecast_never_raises_witness :
    (∀ primary, ∃ f, predict_price primary 5 [1, 2, 3] = Except.ok f) ∧
    (∃ f, predict_price none 5 [1, 2, 3] = Except.ok f ∧
      ([1, 2, 3] : List ℚ).getLast? = some f.current ∧
      f.predicted = linreg_intercept [1, 2, 3] +
        linreg_slope [1, 2, 3] * ((([1, 2, 3] : List ℚ).length + 4 : ℕ) : ℚ)) ∧
    (∀ primary, predict_price primary 5 ([] : List ℚ) =
      Except.error ("ValueError: Found array with 0 sample(s)")) :=
  claim_C1_forecast_never_raises [1, 2, 3] (by simp)
